import Mathlib

/-!
Shallow embedding of jobkit's `core::JobSystem` (implementation in
src/core/src/JobSystem.cpp, header in src/unnamed/part_000), in the default
build configuration `JOBSYS_TELEMETRY = 0`.

The scheduler is modelled as a labelled transition system whose states are
snapshots of the fields of `class JobSystem` at the boundaries of the regions
protected by the internal mutex `m_mtx`, plus the two unlocked worker actions
(running the callable inside `try { } catch (...) { }`, and the
`m_completed.fetch_add` at line 237).  A worker that has passed the unlocked
`m_completed` increment but has not yet performed the locked
`m_inFlight.fetch_sub` (line 241) is in a distinguished `finishing` phase:
this is exactly the "worker mid-transition" window that the counter
invariant excludes.

Two ghost annotations are added purely for specification, with no influence
on the dynamics: each queued `TaskItem` carries `stamp`, the value of
`m_submitted` at the instant it was pushed (recording enqueue order), and
the state carries `discarded`, the total number of tasks dropped by
`Stop(CancelPending)`'s `m_queue.clear()` (line 95).
-/

namespace core

/-- Shutdown mode (`JobSystem.h`): `Drain` finishes queued work then stops,
`CancelPending` drops queued work and finishes only in-flight tasks. -/
inductive StopMode
  | Drain
  | CancelPending
  deriving DecidableEq

/-- A queued task (`struct TaskItem` with `JOBSYS_TELEMETRY = 0`).  The
callable itself is opaque, so the model keeps only the ghost `stamp`: the
value of `m_submitted` at the instant the task was appended, which records
the order of successful enqueue critical sections. -/
structure TaskItem where
  stamp : Nat
  deriving DecidableEq

/-- Phase of one worker thread inside `JobSystem::WorkerLoop`:
`idle` means in the loop holding no task (waiting or between iterations);
`running` means past the pop at lines 204-206, executing the callable;
`finishing` means past the unlocked `m_completed.fetch_add` (line 237) but
before the locked `m_inFlight.fetch_sub` (line 241), the mid-transition
window; `exited` means the loop was left via the `break` at line 198. -/
inductive WorkerPhase
  | idle
  | running
  | finishing
  | exited
  deriving DecidableEq

/-- Snapshot of the mutable fields of `class JobSystem`:
`accepting` is `m_accepting`, `stopRequested` models every worker's
`std::stop_token` after `request_stop` (lines 99-100), `queue` is `m_queue`,
and the three counters are `m_submitted`, `m_completed`, `m_inFlight`.
`discarded` is the ghost count of tasks dropped by `Stop(CancelPending)`;
`workers` is `m_workers`, each thread abstracted to its loop phase. -/
structure SysState where
  accepting : Bool
  stopRequested : Bool
  queue : List TaskItem
  submitted : Nat
  completed : Nat
  inFlight : Nat
  discarded : Nat
  workers : List WorkerPhase
  deriving DecidableEq

/-- Lines 7-14, `static uint32_t ResolveThreadCount(uint32_t requested)`:
`hc` stands for the value of `std::thread::hardware_concurrency()`. -/
def ResolveThreadCount (requested hc : Nat) : Nat :=
  if requested ≠ 0 then requested
  else if hc = 0 then 1 else hc

/-- The constructor `JobSystem::JobSystem` (lines 16-33): spawn `n` workers
(with `n = ResolveThreadCount cfg.workerThreads hc`), all initially idle in
`WorkerLoop`; counters zero, queue empty, accepting submissions. -/
def init (n : Nat) : SysState :=
  { accepting := true, stopRequested := false, queue := [], submitted := 0,
    completed := 0, inFlight := 0, discarded := 0,
    workers := List.replicate n .idle }

/-- `JobSystem::SubmitLabeled` (lines 45-74).  `valid` is the result of the
`if (!task)` test at line 47 (`true` iff the callable is non-empty);
`fastAccepting` is the value seen by the unlocked acquire-load of
`m_accepting` at line 50, which may be staler than the state at the locked
re-check of line 65; the locked re-check reads `s.accepting` itself.  On
success the item (ghost-stamped with the current `m_submitted`) is appended
and `m_submitted` is incremented (lines 68-69).  With `JOBSYS_TELEMETRY = 0`
the label is unobserved (`(void)label`, line 60). -/
def SubmitLabeled (label : Option String) (fastAccepting valid : Bool)
    (s : SysState) : Bool × SysState :=
  if valid = false then (false, s)
  else if fastAccepting = false then (false, s)
  else if s.accepting = false then (false, s)
  else (true, { s with queue := s.queue ++ [⟨s.submitted⟩],
                       submitted := s.submitted + 1 })

/-- `JobSystem::Submit` (lines 40-43): delegates to `SubmitLabeled` with a
null label. -/
def Submit (fastAccepting valid : Bool) (s : SysState) : Bool × SysState :=
  SubmitLabeled none fastAccepting valid s

/-- The predicate `WaitIdle` blocks on (lines 79-83), evaluated in one go
under the lock: queue empty and `m_inFlight == 0`.  `WaitIdle` returns
exactly when this predicate holds. -/
def WaitIdlePred (s : SysState) : Bool :=
  s.queue.isEmpty && s.inFlight == 0

/-- `JobSystem::Stop`, lines 88-90: the compare-exchange of `m_accepting`
from `true` to `false`.  First component is whether this caller won the
exchange (and hence performs the shutdown work); on failure the call
returns at once with the state untouched.  The exchange happens before any
inspection of `mode`, so the early return is mode-independent. -/
def stopTryBegin (s : SysState) : Bool × SysState :=
  if s.accepting = true then (true, { s with accepting := false })
  else (false, s)

/-- `JobSystem::Stop`, lines 92-96: under the lock, `CancelPending` clears
the queue (the ghost `discarded` absorbs the dropped count); `Drain` does
nothing here. -/
def stopDiscard (mode : StopMode) (s : SysState) : SysState :=
  if mode = StopMode.CancelPending then
    { s with queue := [], discarded := s.discarded + s.queue.length }
  else s

/-- `JobSystem::Stop`, lines 98-102: `request_stop` on every worker's stop
token, then `notify_all` on the work condition (the notification itself has
no state effect). -/
def stopRequestAll (s : SysState) : SysState :=
  { s with stopRequested := true }

/-- `JobSystem::Stop`, lines 116-121: `m_workers.clear()` joins every worker
thread and empties the worker vector. -/
def stopJoinWorkers (s : SysState) : SysState :=
  { s with workers := [] }

/-- `JobSystem::WorkerLoop`, lines 201-207: with the lock held and the queue
non-empty, move the head task out, pop it, and raise `m_inFlight`; worker
`i` leaves `idle` for `running`. -/
def workerDequeue (i : Nat) (s : SysState) : SysState :=
  match s.queue with
  | [] => s
  | _ :: rest =>
      { s with queue := rest,
               inFlight := s.inFlight + 1,
               workers := s.workers.set i .running }

/-- `JobSystem::WorkerLoop`, lines 218-237: execute the callable outside the
lock inside `try { task.fn(); } catch (...) { }`.  `raised = true` means an
exception or panic escaped the callable: it is swallowed by the
catch-everything handler (lines 223-226) and both branches fall through to
the `m_completed.fetch_add` at line 237, after which worker `i` is in its
`finishing` window. -/
def workerRun (raised : Bool) (i : Nat) (s : SysState) : SysState :=
  if raised then
    { s with completed := s.completed + 1,
             workers := s.workers.set i .finishing }
  else
    { s with completed := s.completed + 1,
             workers := s.workers.set i .finishing }

/-- `JobSystem::WorkerLoop`, lines 239-248: under the lock, lower
`m_inFlight` and broadcast the idle condition (the broadcast has no state
effect); worker `i` returns to `idle` and resumes the loop. -/
def workerFinish (i : Nat) (s : SysState) : SysState :=
  { s with inFlight := s.inFlight - 1,
           workers := s.workers.set i .idle }

/-- `JobSystem::WorkerLoop`, lines 194-198: with stop requested and the
queue empty, worker `i` breaks out of the loop. -/
def workerExit (i : Nat) (s : SysState) : SysState :=
  { s with workers := s.workers.set i .exited }

/-- The `Stats` snapshot struct of `JobSystem.h`. -/
structure Stats where
  workerCount : Nat
  queued : Nat
  inFlight : Nat
  submitted : Nat
  completed : Nat
  deriving DecidableEq

/-- `JobSystem::GetStats` (lines 124-139): worker count from
`m_workers.size()`, atomic reads of the three counters, queue length taken
under the lock. -/
def GetStats (s : SysState) : Stats :=
  { workerCount := s.workers.length,
    queued := s.queue.length,
    inFlight := s.inFlight,
    submitted := s.submitted,
    completed := s.completed }

/-- Names for the kinds of atomic transitions, used to restrict traces
(for example to executions that never call `Stop`). -/
inductive Label
  | submit
  | dequeue
  | run
  | finish
  | wexit
  | stopCas
  | stopClear
  | stopRequest
  | stopJoin
  deriving DecidableEq

/-- The labels contributed by `JobSystem::Stop` (and by the destructor,
which merely calls `Stop(Drain)`). -/
def Label.isStop : Label → Bool
  | .stopCas => true
  | .stopClear => true
  | .stopRequest => true
  | .stopJoin => true
  | _ => false

/-- One atomic transition of the scheduler.  Each constructor's target state
is computed by the corresponding function above; the side conditions are the
guards the source checks before the action (worker phase, wait predicates,
the compare-exchange outcome).  A submission's fast-path load (line 50) is
taken here to read the current `m_accepting`: because the flag only ever
falls from `true` to `false`, a staler read can only be `false` while the
flag is already `false`, which yields the identical `(false, s)` result, so
no behaviour is lost. -/
inductive Step : Label → SysState → SysState → Prop
  | submit (lab : Option String) (valid : Bool) (s : SysState) :
      Step .submit s (SubmitLabeled lab s.accepting valid s).2
  | dequeue (i : Nat) (s : SysState)
      (hidle : s.workers[i]? = some .idle) (hne : s.queue ≠ []) :
      Step .dequeue s (workerDequeue i s)
  | run (i : Nat) (raised : Bool) (s : SysState)
      (hrun : s.workers[i]? = some .running) :
      Step .run s (workerRun raised i s)
  | finish (i : Nat) (s : SysState)
      (hfin : s.workers[i]? = some .finishing) :
      Step .finish s (workerFinish i s)
  | wexit (i : Nat) (s : SysState)
      (hidle : s.workers[i]? = some .idle)
      (hstop : s.stopRequested = true) (hq : s.queue = []) :
      Step .wexit s (workerExit i s)
  | stopCas (s : SysState) (hacc : s.accepting = true) :
      Step .stopCas s (stopTryBegin s).2
  | stopClear (mode : StopMode) (s : SysState) (hacc : s.accepting = false) :
      Step .stopClear s (stopDiscard mode s)
  | stopRequest (s : SysState) (hacc : s.accepting = false) :
      Step .stopRequest s (stopRequestAll s)
  | stopJoin (s : SysState) (hexited : ∀ w ∈ s.workers, w = .exited) :
      Step .stopJoin s (stopJoinWorkers s)

/-- Finite executions whose every label satisfies `P`. -/
inductive Steps (P : Label → Prop) : SysState → SysState → Prop
  | refl (s : SysState) : Steps P s s
  | tail {s t u : SysState} {l : Label}
      (h : Steps P s t) (hs : Step l t u) (hp : P l) : Steps P s u

/-- States reachable from a freshly constructed scheduler with `n` workers. -/
def Reachable (n : Nat) (s : SysState) : Prop :=
  Steps (fun _ => True) (init n) s

/-- States reachable without any `Stop` activity (no stop labels). -/
def ReachableNoStop (n : Nat) (s : SysState) : Prop :=
  Steps (fun l => l.isStop = false) (init n) s

/-- Number of workers currently in phase `p`. -/
def countPhase (p : WorkerPhase) : List WorkerPhase → Nat
  | [] => 0
  | w :: ws => (if w = p then 1 else 0) + countPhase p ws

/-- Concrete run for the C1 evaluation: one worker, one accepted task. -/
def w1a : SysState := (SubmitLabeled none (init 1).accepting true (init 1)).2

/-- Concrete run for the C1 evaluation: the task has been dequeued. -/
def w1b : SysState := workerDequeue 0 w1a

/-- One worker, one accepted task (C3 run). -/
def w1aC3 : SysState := (SubmitLabeled none (init 1).accepting true (init 1)).2

/-- Concrete run for the C3 evaluation: one accepted task, then the
compare-exchange of `Stop` has succeeded, just before the discard. -/
def c3mid : SysState := (stopTryBegin w1aC3).2

/-- The state right after `Stop(CancelPending)` clears the queue. -/
def c3post : SysState := stopDiscard .CancelPending c3mid

/-- Concrete run for the C4 evaluation: one accepted task. -/
def w4a : SysState := (SubmitLabeled none (init 1).accepting true (init 1)).2

/-- C4 run: the task was dequeued. -/
def w4b : SysState := workerDequeue 0 w4a

/-- C4 run: the callable returned and `m_completed` was bumped. -/
def w4c : SysState := workerRun false 0 w4b

/-- C4 run: `m_inFlight` lowered, the scheduler is idle. -/
def w4d : SysState := workerFinish 0 w4c

/-- A state with one worker mid-execution, for the C5 evaluation. -/
def w5 : SysState :=
  { accepting := true, stopRequested := false, queue := [], submitted := 1,
    completed := 0, inFlight := 1, discarded := 0, workers := [.running] }

/-- Concrete run for the C9 evaluation: first accepted task. -/
def w9a : SysState := (SubmitLabeled none (init 1).accepting true (init 1)).2

/-- C9 run: second accepted task, queue holds stamps 0 then 1. -/
def w9b : SysState := (SubmitLabeled none w9a.accepting true w9a).2

/-- Concrete run for the C8 counterexample: the `Stop` compare-exchange has
succeeded on a scheduler built with `workerThreads = 1`. -/
def c8a : SysState := (stopTryBegin (init (ResolveThreadCount 1 8))).2

/-- C8 run: stop requested on the worker's token. -/
def c8b : SysState := stopRequestAll c8a

/-- C8 run: the sole worker observed the stop request and left its loop. -/
def c8c : SysState := workerExit 0 c8b

/-- C8 run: `Stop` joined the workers (`m_workers.clear()`). -/
def c8d : SysState := stopJoinWorkers c8c

theorem countPhase_replicate (n : Nat) (p q : WorkerPhase) (h : q ≠ p) :
    countPhase p (List.replicate n q) = 0 := by
  induction n with
  | zero => rfl
  | succ m ih => simp [List.replicate_succ, countPhase, h, ih]

theorem countPhase_eq_zero (p : WorkerPhase) (ws : List WorkerPhase)
    (h : ∀ w ∈ ws, w ≠ p) : countPhase p ws = 0 := by
  induction ws with
  | nil => rfl
  | cons w ws ih =>
      have hw : w ≠ p := h w (by simp)
      simp [countPhase, hw]
      exact ih fun v hv => h v (by simp [hv])

/-- Effect of overwriting index `i` (known to hold `a`) with `b` on the
phase counts, stated without natural subtraction. -/
theorem countPhase_set (ws : List WorkerPhase) (i : Nat) (a b p : WorkerPhase)
    (h : ws[i]? = some a) :
    countPhase p (ws.set i b) + (if a = p then 1 else 0)
      = countPhase p ws + (if b = p then 1 else 0) := by
  induction ws generalizing i with
  | nil => simp at h
  | cons x xs ih =>
      cases i with
      | zero =>
          have hx : x = a := by simpa using h
          subst hx
          by_cases hxp : x = p <;> by_cases hbp : b = p <;>
            simp [countPhase, hxp, hbp] <;> omega
      | succ j =>
          have h' : xs[j]? = some a := by simpa using h
          have hj := ih j h'
          by_cases hxp : x = p <;>
            simp [countPhase, hxp, List.set] <;> omega

theorem lt_length_of_getElem? {α : Type} {l : List α} {i : Nat} {a : α}
    (h : l[i]? = some a) : i < l.length := by
  induction l generalizing i with
  | nil => simp at h
  | cons x xs ih =>
      cases i with
      | zero => simp
      | succ j =>
          have h' : xs[j]? = some a := by simpa using h
          simpa using Nat.succ_lt_succ (ih h')

theorem getElem?_set_self {α : Type} (l : List α) (i : Nat) (b : α)
    (h : i < l.length) : (l.set i b)[i]? = some b := by
  induction l generalizing i with
  | nil => simp at h
  | cons x xs ih =>
      cases i with
      | zero => simp
      | succ j =>
          have h' : j < xs.length := by simpa using h
          simpa [List.set] using ih j h'

/-- The inductive invariant of reachable scheduler states.  `count` is the
counter equation including the mid-transition correction (a `finishing`
worker has already bumped `m_completed` while still counted in
`m_inFlight`) and the ghost `discarded`.  `flight` ties `m_inFlight` to the
worker phases.  The stamp facts record FIFO discipline: queue stamps are
strictly increasing and below the current `m_submitted`. -/
structure Inv (s : SysState) : Prop where
  count : s.submitted + countPhase .finishing s.workers
            = s.completed + s.inFlight + s.queue.length + s.discarded
  flight : s.inFlight
            = countPhase .running s.workers + countPhase .finishing s.workers
  stampsSorted : s.queue.Pairwise (fun a b => a.stamp < b.stamp)
  stampsLt : ∀ t ∈ s.queue, t.stamp < s.submitted

theorem inv_init (n : Nat) : Inv (init n) := by
  refine ⟨?_, ?_, ?_, ?_⟩
  · simp [init, countPhase_replicate n .finishing .idle (by simp)]
  · simp [init, countPhase_replicate n .finishing .idle (by simp),
          countPhase_replicate n .running .idle (by simp)]
  · simp [init]
  · simp [init]

theorem inv_step {l : Label} {s t : SysState} (h : Step l s t) (hs : Inv s) :
    Inv t := by
  obtain ⟨hcount, hflight, hsorted, hlt⟩ := hs
  cases h with
  | submit lab valid s =>
      by_cases hv : valid = false
      · simpa [SubmitLabeled, hv] using ⟨hcount, hflight, hsorted, hlt⟩
      · by_cases ha : s.accepting = false
        · simpa [SubmitLabeled, hv, ha] using ⟨hcount, hflight, hsorted, hlt⟩
        · refine ⟨?_, ?_, ?_, ?_⟩ <;> simp [SubmitLabeled, hv, ha]
          · omega
          · exact hflight
          · refine List.pairwise_append.mpr ⟨hsorted, by simp, ?_⟩
            intro a hha b hb
            simp at hb
            simpa [hb] using hlt a hha
          · rintro t (ht | rfl)
            · exact Nat.lt_succ_of_lt (hlt t ht)
            · exact Nat.lt_succ_self _
  | dequeue i s hidle hne =>
      cases hq : s.queue with
      | nil => exact absurd hq hne
      | cons q rest =>
          have hfin := countPhase_set s.workers i .idle .running .finishing hidle
          have hrun := countPhase_set s.workers i .idle .running .running hidle
          simp at hfin hrun
          refine ⟨?_, ?_, ?_, ?_⟩ <;> simp [workerDequeue, hq]
          · rw [hq] at hcount; simp at hcount; omega
          · omega
          · exact ((hq ▸ hsorted).sublist (List.sublist_cons_self q rest))
          · intro t ht
            exact hlt t (by simp [hq, ht])
  | run i raised s hrun =>
      have hfin := countPhase_set s.workers i .running .finishing .finishing hrun
      have hrn := countPhase_set s.workers i .running .finishing .running hrun
      simp at hfin hrn
      cases raised <;>
        · refine ⟨?_, ?_, ?_, ?_⟩ <;> simp [workerRun]
          · omega
          · omega
          · exact hsorted
          · exact hlt
  | finish i s hfin =>
      have hf := countPhase_set s.workers i .finishing .idle .finishing hfin
      have hr := countPhase_set s.workers i .finishing .idle .running hfin
      simp at hf hr
      refine ⟨?_, ?_, ?_, ?_⟩ <;> simp [workerFinish]
      · omega
      · omega
      · exact hsorted
      · exact hlt
  | wexit i s hidle hstop hq =>
      have hf := countPhase_set s.workers i .idle .exited .finishing hidle
      have hr := countPhase_set s.workers i .idle .exited .running hidle
      simp at hf hr
      refine ⟨?_, ?_, ?_, ?_⟩ <;> simp [workerExit]
      · omega
      · omega
      · exact hsorted
      · exact hlt
  | stopCas s hacc =>
      refine ⟨?_, ?_, ?_, ?_⟩ <;> simp [stopTryBegin, hacc]
      · exact hcount
      · exact hflight
      · exact hsorted
      · exact hlt
  | stopClear mode s hacc =>
      cases mode with
      | Drain => exact ⟨hcount, hflight, hsorted, hlt⟩
      | CancelPending =>
          refine ⟨?_, ?_, ?_, ?_⟩ <;> simp [stopDiscard]
          · omega
          · exact hflight
  | stopRequest s hacc =>
      exact ⟨hcount, hflight, hsorted, hlt⟩
  | stopJoin s hexited =>
      have hf : countPhase .finishing s.workers = 0 :=
        countPhase_eq_zero _ _ fun w hw => by simp [hexited w hw]
      have hr : countPhase .running s.workers = 0 :=
        countPhase_eq_zero _ _ fun w hw => by simp [hexited w hw]
      refine ⟨?_, ?_, ?_, ?_⟩ <;> simp [stopJoinWorkers, countPhase]
      · omega
      · omega
      · exact hsorted
      · exact hlt

theorem inv_steps {P : Label → Prop} {s t : SysState}
    (h : Steps P s t) (hs : Inv s) : Inv t := by
  induction h with
  | refl => exact hs
  | tail h hstep hp ih => exact inv_step hstep ih

theorem inv_reachable {n : Nat} {s : SysState} (h : Reachable n s) : Inv s :=
  inv_steps h (inv_init n)

/-- No transition ever raises `m_accepting` back to `true`: only the
compare-exchange in `Stop` writes it, and it writes `false`. -/
theorem step_accepting {l : Label} {s t : SysState} (h : Step l s t)
    (ha : s.accepting = false) : t.accepting = false := by
  cases h with
  | submit lab valid s => simp [SubmitLabeled, ha]
  | dequeue i s hidle hne =>
      cases hq : s.queue <;> simp [workerDequeue, hq, ha]
  | run i raised s hrun => cases raised <;> simp [workerRun, ha]
  | finish i s hfin => simp [workerFinish, ha]
  | wexit i s hidle hstop hq => simp [workerExit, ha]
  | stopCas s hacc => simp [stopTryBegin, hacc]
  | stopClear mode s hacc =>
      cases mode <;> simp [stopDiscard, ha]
  | stopRequest s hacc => simp [stopRequestAll, ha]
  | stopJoin s hexited => simp [stopJoinWorkers, ha]

theorem steps_accepting {P : Label → Prop} {s t : SysState}
    (h : Steps P s t) (ha : s.accepting = false) : t.accepting = false := by
  induction h with
  | refl => exact ha
  | tail h hstep hp ih => exact step_accepting hstep ih

/-- Only `Stop` labels can change the ghost discard count. -/
theorem step_discarded {l : Label} {s t : SysState} (h : Step l s t)
    (hl : l.isStop = false) : t.discarded = s.discarded := by
  cases h with
  | submit lab valid s =>
      by_cases hv : valid = false
      · simp [SubmitLabeled, hv]
      · by_cases ha : s.accepting = false <;> simp [SubmitLabeled, hv, ha]
  | dequeue i s hidle hne =>
      cases hq : s.queue <;> simp [workerDequeue, hq]
  | run i raised s hrun => cases raised <;> simp [workerRun]
  | finish i s hfin => simp [workerFinish]
  | wexit i s hidle hstop hq => simp [workerExit]
  | stopCas s hacc => simp [Label.isStop] at hl
  | stopClear mode s hacc => simp [Label.isStop] at hl
  | stopRequest s hacc => simp [Label.isStop] at hl
  | stopJoin s hexited => simp [Label.isStop] at hl

theorem steps_discarded {s t : SysState}
    (h : Steps (fun l => l.isStop = false) s t) : t.discarded = s.discarded := by
  induction h with
  | refl => rfl
  | tail h hstep hp ih => rw [step_discarded hstep hp, ih]

/-- Only the join at the end of `Stop` changes the size of `m_workers`. -/
theorem step_workers_length {l : Label} {s t : SysState} (h : Step l s t)
    (hl : l ≠ .stopJoin) : t.workers.length = s.workers.length := by
  cases h with
  | submit lab valid s =>
      by_cases hv : valid = false
      · simp [SubmitLabeled, hv]
      · by_cases ha : s.accepting = false <;> simp [SubmitLabeled, hv, ha]
  | dequeue i s hidle hne =>
      cases hq : s.queue <;> simp [workerDequeue, hq]
  | run i raised s hrun => cases raised <;> simp [workerRun]
  | finish i s hfin => simp [workerFinish]
  | wexit i s hidle hstop hq => simp [workerExit]
  | stopCas s hacc => simp [stopTryBegin, hacc]
  | stopClear mode s hacc => cases mode <;> simp [stopDiscard]
  | stopRequest s hacc => simp [stopRequestAll]
  | stopJoin s hexited => exact absurd rfl hl

theorem steps_workers_length {s t : SysState}
    (h : Steps (fun l => l ≠ Label.stopJoin) s t) :
    t.workers.length = s.workers.length := by
  induction h with
  | refl => rfl
  | tail h hstep hp ih => rw [step_workers_length hstep hp, ih]

/-- C1: in every reachable state in which no worker is mid-transition (no
worker sits between the unlocked `m_completed` increment and the locked
`m_inFlight` decrement), the counter equation
`submitted = completed + inFlight + queued` holds, corrected by the ghost
count of tasks discarded by `Stop(CancelPending)` exactly as the spec's
parenthesis describes. -/
theorem C1_counter_equation (n : Nat) (s : SysState) (hreach : Reachable n s)
    (hnomid : countPhase .finishing s.workers = 0) :
    s.submitted = s.completed + s.inFlight + s.queue.length + s.discarded := by
  have h := (inv_reachable hreach).count
  omega

/-- C1 witness: the equation evaluated on a concrete run (one worker, one
accepted task, dequeued and in flight). -/
theorem C1_witness :
    w1b.submitted = w1b.completed + w1b.inFlight + w1b.queue.length
      + w1b.discarded :=
  C1_counter_equation 1 w1b
    (Steps.tail (Steps.tail (Steps.refl _) (Step.submit none true (init 1))
        trivial)
      (Step.dequeue 0 w1a (by decide) (by decide)) trivial)
    (by decide)

/-- C2: `SubmitLabeled` (hence `Submit`) returns `true` iff the callable is
non-empty and `m_accepting` is `true` at the locked re-check (the moment the
submission critical section runs); `true` iff the task was appended to the
queue; and on `false` the state is untouched, so there is no other failure
mode and no capacity limit.  The hypothesis `hmono` reflects that the
fast-path load of line 50 can only be staler than the locked read of an
`m_accepting` that falls monotonically from `true` to `false`. -/
theorem C2_submit_contract (lab : Option String) (fastAcc valid : Bool)
    (s : SysState) (hmono : fastAcc = false → s.accepting = false) :
    ((SubmitLabeled lab fastAcc valid s).1 = true
        ↔ valid = true ∧ s.accepting = true)
    ∧ ((SubmitLabeled lab fastAcc valid s).1 = true
        ↔ (SubmitLabeled lab fastAcc valid s).2.queue
            = s.queue ++ [⟨s.submitted⟩])
    ∧ ((SubmitLabeled lab fastAcc valid s).1 = false
        → (SubmitLabeled lab fastAcc valid s).2 = s) := by
  cases valid with
  | false => simp [SubmitLabeled]
  | true =>
      cases fastAcc with
      | false => simp [SubmitLabeled, hmono rfl]
      | true =>
          cases ha : s.accepting with
          | false => simp [SubmitLabeled, ha]
          | true => simp [SubmitLabeled, ha]

/-- C2 witness: the contract evaluated on a fresh one-worker scheduler with
a valid callable. -/
theorem C2_witness :
    ((SubmitLabeled none true true (init 1)).1 = true
        ↔ true = true ∧ (init 1).accepting = true)
    ∧ ((SubmitLabeled none true true (init 1)).1 = true
        ↔ (SubmitLabeled none true true (init 1)).2.queue
            = (init 1).queue ++ [⟨(init 1).submitted⟩])
    ∧ ((SubmitLabeled none true true (init 1)).1 = false
        → (SubmitLabeled none true true (init 1)).2 = init 1) :=
  C2_submit_contract none true true (init 1) (by simp)

/-- C3 counterexample: the claim's equation `submitted = completed +
inFlight` fails right after the `Stop(CancelPending)` discard whenever a
task was actually discarded.  Concrete run: one worker, one accepted and
still-queued task, `Stop(CancelPending)` wins the compare-exchange and
clears the queue; then `submitted = 1` but `completed + inFlight = 0`,
because the code never rolls `m_submitted` back for discarded tasks. -/
theorem C3_counterexample :
    Reachable 1 c3mid
    ∧ c3post = stopDiscard .CancelPending c3mid
    ∧ Reachable 1 c3post
    ∧ ¬ c3post.submitted = c3post.completed + c3post.inFlight := by
  have h1 : Reachable 1 c3mid :=
    Steps.tail (Steps.tail (Steps.refl _) (Step.submit none true (init 1))
        trivial)
      (Step.stopCas w1aC3 (by decide)) trivial
  exact ⟨h1, rfl,
    Steps.tail h1 (Step.stopClear .CancelPending c3mid (by decide)) trivial,
    by decide⟩

/-- C3 amended: after the `Stop(CancelPending)` discard (run from any
reachable state with no worker mid-transition), the queue is empty, the
`completed` counter has not advanced for the discarded tasks, and the
counter equation keeps the discarded count on the submitted side:
`submitted = completed + inFlight + discarded` (equivalently,
`submitted - discarded = completed + inFlight`), rather than the claimed
`submitted = completed + inFlight`. -/
theorem C3_after_discard (n : Nat) (s : SysState) (hreach : Reachable n s)
    (hnomid : countPhase .finishing s.workers = 0) :
    (stopDiscard .CancelPending s).queue = []
    ∧ (stopDiscard .CancelPending s).completed = s.completed
    ∧ (stopDiscard .CancelPending s).submitted
        = (stopDiscard .CancelPending s).completed
          + (stopDiscard .CancelPending s).inFlight
          + (stopDiscard .CancelPending s).discarded := by
  have h := (inv_reachable hreach).count
  refine ⟨by simp [stopDiscard], by simp [stopDiscard], ?_⟩
  simp [stopDiscard]
  omega

/-- C3 amended witness: the corrected equation evaluated on the concrete
discard run used by the counterexample. -/
theorem C3_witness :
    (stopDiscard .CancelPending c3mid).queue = []
    ∧ (stopDiscard .CancelPending c3mid).completed = c3mid.completed
    ∧ (stopDiscard .CancelPending c3mid).submitted
        = (stopDiscard .CancelPending c3mid).completed
          + (stopDiscard .CancelPending c3mid).inFlight
          + (stopDiscard .CancelPending c3mid).discarded :=
  C3_after_discard 1 c3mid
    (Steps.tail (Steps.tail (Steps.refl _) (Step.submit none true (init 1))
        trivial)
      (Step.stopCas w1aC3 (by decide)) trivial)
    (by decide)

/-- C4: on any execution that never calls `Stop`, whenever the predicate
`WaitIdle` blocks on (queue empty and `inFlight = 0`, evaluated together
under the lock) holds - i.e. whenever `WaitIdle` returns - the counters
satisfy `completed = submitted`, `queued = 0` and `inFlight = 0`. -/
theorem C4_waitidle (n : Nat) (s : SysState) (hreach : ReachableNoStop n s)
    (hidle : WaitIdlePred s = true) :
    s.completed = s.submitted ∧ s.queue.length = 0 ∧ s.inFlight = 0 := by
  have hinv := inv_steps hreach (inv_init n)
  have hd : s.discarded = 0 := steps_discarded hreach
  simp [WaitIdlePred] at hidle
  obtain ⟨hq, hf⟩ := hidle
  have hcount := hinv.count
  have hflight := hinv.flight
  have hfin : countPhase .finishing s.workers = 0 := by omega
  refine ⟨?_, ?_, hf⟩ <;> simp [hq] at hcount ⊢
  omega

/-- C4 witness: a stop-free run of one task through submit, dequeue,
execute and finish, ending in the idle state. -/
theorem C4_witness :
    w4d.completed = w4d.submitted ∧ w4d.queue.length = 0
      ∧ w4d.inFlight = 0 :=
  C4_waitidle 1 w4d
    (Steps.tail (Steps.tail (Steps.tail (Steps.tail (Steps.refl _)
            (Step.submit none true (init 1)) rfl)
          (Step.dequeue 0 w4a (by decide) (by decide)) rfl)
        (Step.run 0 false w4b (by decide)) rfl)
      (Step.finish 0 w4c (by decide)) rfl)
    (by decide)

/-- C5: an exception or panic escaping the callable (`raised = true`) is
swallowed at the worker boundary: the post-state is identical to a normal
return, `m_completed` still advances for the task, and after the locked
wrap-up the worker is back to `idle` in its loop (it neither dies nor
exits). -/
theorem C5_exception_contained (raised : Bool) (i : Nat) (s : SysState)
    (hrun : s.workers[i]? = some .running) :
    workerRun raised i s = workerRun false i s
    ∧ (workerRun raised i s).completed = s.completed + 1
    ∧ (workerFinish i (workerRun raised i s)).workers[i]?
        = some WorkerPhase.idle := by
  have hi : i < s.workers.length := lt_length_of_getElem? hrun
  have hset : ((s.workers.set i .finishing).set i .idle)[i]?
      = some WorkerPhase.idle :=
    getElem?_set_self _ i _ (by simpa using hi)
  cases raised <;> exact ⟨rfl, by simp [workerRun], by
    simpa [workerRun, workerFinish] using hset⟩

/-- C5 witness: a throwing task on a single-worker scheduler is counted as
completed and the worker returns to idle. -/
theorem C5_witness :
    workerRun true 0 w5 = workerRun false 0 w5
    ∧ (workerRun true 0 w5).completed = w5.completed + 1
    ∧ (workerFinish 0 (workerRun true 0 w5)).workers[0]?
        = some WorkerPhase.idle :=
  C5_exception_contained true 0 w5 (by decide)

/-- C6: from any state in which `m_accepting` is already `false` (as it is
once `Stop` has returned, with either mode), every state reachable by any
further transitions still has `m_accepting = false` - the flag never
transitions back - and every `Submit`/`SubmitLabeled` call there returns
`false`, whatever its callable and fast-path load. -/
theorem C6_stop_forever (s u : SysState) (hacc : s.accepting = false)
    (hsteps : Steps (fun _ => True) s u) :
    u.accepting = false
    ∧ ∀ (lab : Option String) (fa v : Bool),
        (SubmitLabeled lab fa v u).1 = false := by
  have hu : u.accepting = false := steps_accepting hsteps hacc
  refine ⟨hu, ?_⟩
  intro lab fa v
  cases v <;> cases fa <;> simp [SubmitLabeled, hu]

/-- C6 witness: immediately after the `Stop` compare-exchange on a fresh
scheduler, a valid submission is refused. -/
theorem C6_witness :
    (stopTryBegin (init 1)).2.accepting = false
    ∧ ∀ (lab : Option String) (fa v : Bool),
        (SubmitLabeled lab fa v (stopTryBegin (init 1)).2).1 = false :=
  C6_stop_forever (stopTryBegin (init 1)).2 (stopTryBegin (init 1)).2
    (by decide) (Steps.refl _)

/-- C7: `Stop` is idempotent.  Once a first call has won the
compare-exchange (line 89), then after any further transitions a second
`Stop` call - with either mode, including the destructor's `Stop(Drain)` -
fails the compare-exchange before inspecting its mode, performs no shutdown
work, and returns at once with the state unchanged. -/
theorem C7_stop_idempotent (s u : SysState)
    (hfirst : (stopTryBegin s).1 = true)
    (hsteps : Steps (fun _ => True) (stopTryBegin s).2 u) :
    stopTryBegin u = (false, u) ∧ u.accepting = false := by
  have hs : s.accepting = true := by
    by_contra h
    simp [stopTryBegin, h] at hfirst
  have h0 : (stopTryBegin s).2.accepting = false := by
    simp [stopTryBegin, hs]
  have hu : u.accepting = false := steps_accepting hsteps h0
  exact ⟨by simp [stopTryBegin, hu], hu⟩

/-- C7 witness: a second `Stop` immediately after the first on a fresh
scheduler is a no-op. -/
theorem C7_witness :
    stopTryBegin (stopTryBegin (init 1)).2 = (false, (stopTryBegin (init 1)).2)
    ∧ (stopTryBegin (init 1)).2.accepting = false :=
  C7_stop_idempotent (init 1) (stopTryBegin (init 1)).2 (by decide)
    (Steps.refl _)

/-- C8 counterexample: the worker count as reported by `GetStats` is not
always `config.workerThreads`, nor always at least 1.  Concrete run: a
scheduler built with `workerThreads = 1` (hardware concurrency 8) runs
`Stop` to completion; `m_workers.clear()` at line 117 empties the vector,
so `GetStats` then reports `workerCount = 0`. -/
theorem C8_counterexample :
    Reachable (ResolveThreadCount 1 8) c8d
    ∧ (GetStats c8d).workerCount = 0
    ∧ ¬ 1 ≤ (GetStats c8d).workerCount
    ∧ ¬ (GetStats c8d).workerCount = 1 := by
  refine ⟨?_, by decide, by decide, by decide⟩
  exact Steps.tail (Steps.tail (Steps.tail (Steps.tail (Steps.refl _)
          (Step.stopCas (init (ResolveThreadCount 1 8)) (by decide)) trivial)
        (Step.stopRequest c8a (by decide)) trivial)
      (Step.wexit 0 c8b (by decide) (by decide) (by decide)) trivial)
    (Step.stopJoin c8c (by decide)) trivial

/-- C8 amended: in every state reached before `Stop` joins the workers
(no `stopJoin` transition yet), `GetStats` reports exactly the resolved
construction count: `config.workerThreads` when that is non-zero, else the
hardware concurrency, else 1 - hence at least 1.  After `Stop` completes,
`m_workers.clear()` makes the reported count 0. -/
theorem C8_worker_count (req hc : Nat) (s : SysState)
    (hreach : Steps (fun l => l ≠ Label.stopJoin)
      (init (ResolveThreadCount req hc)) s) :
    (GetStats s).workerCount = ResolveThreadCount req hc
    ∧ 1 ≤ (GetStats s).workerCount
    ∧ (req ≠ 0 → (GetStats s).workerCount = req)
    ∧ (req = 0 → (GetStats s).workerCount = if hc = 0 then 1 else hc) := by
  have hlen : s.workers.length = ResolveThreadCount req hc := by
    have h := steps_workers_length hreach
    simpa [init] using h
  have hcount : (GetStats s).workerCount = ResolveThreadCount req hc := by
    simpa [GetStats] using hlen
  refine ⟨hcount, ?_, ?_, ?_⟩
  · rw [hcount]
    unfold ResolveThreadCount
    by_cases h : req = 0 <;> by_cases h2 : hc = 0 <;> simp [h, h2] <;> omega
  · intro h
    rw [hcount]
    simp [ResolveThreadCount, h]
  · intro h
    rw [hcount]
    simp [ResolveThreadCount, h]

/-- C8 amended witness: a fresh scheduler with `workerThreads = 0` and
hardware concurrency 4 reports 4 workers. -/
theorem C8_witness :
    (GetStats (init (ResolveThreadCount 0 4))).workerCount
        = ResolveThreadCount 0 4
    ∧ 1 ≤ (GetStats (init (ResolveThreadCount 0 4))).workerCount
    ∧ ((0 : Nat) ≠ 0
        → (GetStats (init (ResolveThreadCount 0 4))).workerCount = 0)
    ∧ ((0 : Nat) = 0
        → (GetStats (init (ResolveThreadCount 0 4))).workerCount
            = if (4 : Nat) = 0 then 1 else 4) :=
  C8_worker_count 0 4 (init (ResolveThreadCount 0 4)) (Steps.refl _)

/-- C9: FIFO discipline.  In every reachable state whose queue is
non-empty, the worker pop (`m_queue.front()` then `pop_front`) removes the
head, and the head's ghost stamp is strictly smaller than that of every
other queued task - the dequeued item is the one enqueued earliest among
those still present. -/
theorem C9_fifo (n i : Nat) (s : SysState) (t : TaskItem)
    (rest : List TaskItem) (hreach : Reachable n s)
    (hq : s.queue = t :: rest) :
    (workerDequeue i s).queue = rest ∧ ∀ u ∈ rest, t.stamp < u.stamp := by
  have hsorted := (inv_reachable hreach).stampsSorted
  rw [hq] at hsorted
  exact ⟨by simp [workerDequeue, hq], (List.pairwise_cons.mp hsorted).1⟩

/-- C9 witness: with two queued tasks (stamps 0 and 1), the pop removes the
stamp-0 task, the earliest enqueued. -/
theorem C9_witness :
    (workerDequeue 0 w9b).queue = [TaskItem.mk 1]
    ∧ ∀ u ∈ [TaskItem.mk 1], (TaskItem.mk 0).stamp < u.stamp :=
  C9_fifo 1 0 w9b (TaskItem.mk 0) [TaskItem.mk 1]
    (Steps.tail (Steps.tail (Steps.refl _) (Step.submit none true (init 1))
        trivial)
      (Step.submit none true w9a) trivial)
    (by decide)

/-- C10: `Submit(task)` is exactly `SubmitLabeled(nullptr, task)` - the
source body of `Submit` (lines 40-43) is a single delegation, so return
value and state effect coincide for every callable, fast-path load and
scheduler state. -/
theorem C10_submit_delegates (fastAcc valid : Bool) (s : SysState) :
    Submit fastAcc valid s = SubmitLabeled none fastAcc valid s := rfl

end core
